import Mathlib

/-!
Verification of the GIF-picker panel core (`ts/components/fun/panels/FunPanelGifs.tsx`):
debounced query controller, loader dispatch table, dual-tier media cache,
waterfall range extractor, prefetch trigger, per-item download error handling,
and the roving-tabindex policy.  Definitions are shallow embeddings of the
TypeScript source; external collaborators not present in the inspected source
(the `lru-cache` package and the pagination engine) are modelled from the spec.
-/

namespace FunGifs

/-- Media reference: `GifMediaType` from the source, `{url, width, height}`. -/
structure GifMediaType where
  url : String
  width : Nat
  height : Nat
deriving DecidableEq

/-- One GIF item: `GifType` from the source. -/
structure GifType where
  id : String
  title : String
  description : String
  previewMedia : GifMediaType
  attachmentMedia : GifMediaType
deriving DecidableEq

/-- The closed enumeration of GIF sections: `FunSectionCommon.Recents`,
`FunSectionCommon.SearchResults` and the eight `FunGifsCategory` values
used by `FunPanelGifs`. -/
inductive FunGifsSection where
  | recents
  | searchResults
  | trending
  | celebrate
  | love
  | thumbsUp
  | surprised
  | excited
  | sad
  | angry
deriving DecidableEq

/-- A query: `GifsQuery` from the source, a selected section plus the trimmed
search text. -/
structure GifsQuery where
  selectedSection : FunGifsSection
  searchQuery : String
deriving DecidableEq

/-- One page of results: `GifsPaginated`, an optional continuation cursor and
the fetched items. -/
structure GifsPaginated where
  next : Option String
  gifs : List GifType
deriving DecidableEq

/-- The network action the loader dispatches: a synchronous local page
(recents), a call to `fetchGifsFeatured`, or a call to `fetchGifsSearch`. -/
inductive FetchAction where
  | page (p : GifsPaginated)
  | featured (limit : Nat) (cursor : Option String)
  | search (term : String) (limit : Nat) (cursor : Option String)
deriving DecidableEq

/-- Source line `const cursor = previousPage?.next ?? null`. -/
def loaderCursor (previousPage : Option GifsPaginated) : Option String :=
  match previousPage with
  | some p => p.next
  | none => none

/-- Source line `const limit = cursor != null ? 30 : 10`. -/
def loaderLimit (previousPage : Option GifsPaginated) : Nat :=
  if (loaderCursor previousPage).isSome then 30 else 10

/-- The loader callback of `FunPanelGifs`: non-empty search text dispatches a
generic search; otherwise the section is dispatched through the category
table.  A `SearchResults` section with empty search text hits the
`strictAssert` and throws; the trailing `missingCaseError` throw of the
source is unreachable for the closed section enumeration. -/
def loader (recentGifs : List GifType) (query : GifsQuery)
    (previousPage : Option GifsPaginated) : Except String FetchAction :=
  let cursor := loaderCursor previousPage
  let limit := loaderLimit previousPage
  if query.searchQuery ≠ "" then
    .ok (.search query.searchQuery limit cursor)
  else
    match query.selectedSection with
    | .searchResults => .error "Section is search results when not searching"
    | .recents => .ok (.page { next := none, gifs := recentGifs })
    | .trending => .ok (.featured limit cursor)
    | .celebrate => .ok (.search "celebrate" limit cursor)
    | .love => .ok (.search "love" limit cursor)
    | .thumbsUp => .ok (.search "thumbs-up" limit cursor)
    | .surprised => .ok (.search "surprised" limit cursor)
    | .excited => .ok (.search "excited" limit cursor)
    | .sad => .ok (.search "sad" limit cursor)
    | .angry => .ok (.search "angry" limit cursor)

/-- Whether an `Except` result is a success (the loader returned a page or a
fetch action rather than throwing). -/
def exceptIsOk : Except String FetchAction → Bool
  | .ok _ => true
  | .error _ => false

/-- A binary buffer (browser `Blob`); its byte size is the length of its
data, matching `new Blob([bytes])` and `sizeCalculation: blob => blob.size`. -/
structure Blob where
  data : List Nat
deriving DecidableEq

/-- Byte size of a blob. -/
def Blob.size (b : Blob) : Nat := b.data.length

/-- Source constant `MAX_CACHE_SIZE = 50 * 1024 * 1024` (50 MB). -/
def MAX_CACHE_SIZE : Nat := 50 * 1024 * 1024

/-- Total byte cost of a list of url-keyed entries. -/
def listSize (l : List (String × Blob)) : Nat := (l.map (fun e => e.2.size)).sum

/-- Remove every entry with the given key. -/
def eraseKey (l : List (String × Blob)) (k : String) : List (String × Blob) :=
  l.filter (fun e => e.1 != k)

/-- Modelled from the spec: the durable tier is the external `lru-cache`
package, which is not part of the inspected source; only its configuration
(`maxSize`, `sizeCalculation`) appears there.  Entries are kept
most-recently-accessed first, so the least-recently-accessed entry is the
last one. -/
structure LRUCache where
  entries : List (String × Blob)
  maxSize : Nat
deriving DecidableEq

/-- Total byte cost currently held by the durable tier. -/
def LRUCache.totalSize (c : LRUCache) : Nat := listSize c.entries

/-- Modelled from the spec: eviction drops least-recently-accessed entries
(the end of the recency list) until the remaining total cost fits the
budget. -/
def evictToFit (l : List (String × Blob)) (budget : Nat) : List (String × Blob) :=
  if listSize l ≤ budget then l
  else evictToFit l.dropLast budget
termination_by l.length
decreasing_by
  rename_i h
  cases l with
  | nil => simp [listSize] at h
  | cons x xs => simp [List.length_dropLast]

/-- Pure lookup of an entry by key (no recency change). -/
def LRUCache.lookup (c : LRUCache) (k : String) : Option Blob :=
  (c.entries.find? (fun e => e.1 == k)).map (fun e => e.2)

/-- Modelled from the spec: `get` returns the entry for the key, if present,
and marks it most recently accessed. -/
def LRUCache.get (c : LRUCache) (k : String) : Option Blob × LRUCache :=
  match c.entries.find? (fun e => e.1 == k) with
  | none => (none, c)
  | some e => (some e.2, { c with entries := (k, e.2) :: eraseKey c.entries k })

/-- Modelled from the spec: `set` rejects an entry whose cost alone exceeds
the bound; otherwise it replaces any entry with the same key, evicts
least-recently-accessed entries until the new entry fits, and inserts the new
entry as most recently accessed. -/
def LRUCache.set (c : LRUCache) (k : String) (b : Blob) : LRUCache :=
  if c.maxSize < b.size then c
  else
    { c with
      entries :=
        (k, b) :: evictToFit (eraseKey c.entries k) (c.maxSize - b.size) }

/-- Source: `new LRUCache({maxSize: MAX_CACHE_SIZE, sizeCalculation: blob =>
blob.size})` — the initial (empty) durable tier. -/
def FunGifBlobCacheInit : LRUCache := { entries := [], maxSize := MAX_CACHE_SIZE }

/-- One operation against the durable tier: a write or a read access. -/
inductive CacheOp where
  | write (k : String) (b : Blob)
  | access (k : String)

/-- Apply one cache operation. -/
def runCacheOp (c : LRUCache) : CacheOp → LRUCache
  | .write k b => c.set k b
  | .access k => (c.get k).2

/-- Apply a sequence of cache operations in order. -/
def runCacheOps (c : LRUCache) (ops : List CacheOp) : LRUCache :=
  ops.foldl runCacheOp c

/-- A media reference together with its allocation identity: the source keys
`FunGifBlobLiveCache` (a `WeakMap`) by the `GifMediaType` object itself, so
the embedding pairs the media value with an identity tag. -/
structure GifMediaRef where
  identity : Nat
  media : GifMediaType
deriving DecidableEq

/-- The two cache tiers: the url-keyed durable `FunGifBlobCache` and the
identity-keyed ephemeral `FunGifBlobLiveCache`. -/
structure GifBlobCaches where
  blobCache : LRUCache
  liveCache : List (Nat × Blob)
deriving DecidableEq

/-- Lookup in the identity tier by allocation identity. -/
def liveLookup (l : List (Nat × Blob)) (tag : Nat) : Option Blob :=
  (l.find? (fun e => e.1 == tag)).map (fun e => e.2)

/-- Source `readGifMediaFromCache`: the identity tier is consulted first, the
url-keyed durable tier only on an identity miss.  The durable tier recency
bump of a hit does not change the returned value. -/
def readGifMediaFromCache (st : GifBlobCaches) (ref : GifMediaRef) : Option Blob :=
  match liveLookup st.liveCache ref.identity with
  | some b => some b
  | none => st.blobCache.lookup ref.media.url

/-- Source `saveGifMediaToCache`: writes the durable tier under the url and
the identity tier under the reference identity, both unconditionally. -/
def saveGifMediaToCache (st : GifBlobCaches) (ref : GifMediaRef) (blob : Blob) :
    GifBlobCaches :=
  { blobCache := st.blobCache.set ref.media.url blob
    liveCache :=
      (ref.identity, blob) :: st.liveCache.filter (fun e => e.1 != ref.identity) }

/-- End of the identity-tier scope of one reference: the `WeakMap` entry is
reclaimed together with its key object. -/
def collectLiveRef (st : GifBlobCaches) (tag : Nat) : GifBlobCaches :=
  { st with liveCache := st.liveCache.filter (fun e => e.1 != tag) }

/-- Source constant `GIF_WATERFALL_COLUMNS = 2` (the lane count). -/
def GIF_WATERFALL_COLUMNS : Nat := 2

/-- The overscan margin `4 * GIF_WATERFALL_COLUMNS` used both by the
virtualizer configuration and by the prefetch effect. -/
def overscanMargin : Nat := 4 * GIF_WATERFALL_COLUMNS

/-- Source `const lastIndex = virtualizer.range?.endIndex ?? -1`. -/
def lastIndexOfRange (endIndex : Option Nat) : Int :=
  match endIndex with
  | some i => (i : Int)
  | none => -1

/-- The guard of the prefetch effect (source lines 315 to 330): the effect
returns early when no visible range exists, the list is empty, no further
page exists, or a load is pending; otherwise it calls `fetchNextPage()` iff
`lastIndex + overscan >= count - 1`. -/
def shouldFetchNextPage (lastIndex : Int) (count : Nat)
    (hasNextPage pending : Bool) : Bool :=
  if lastIndex == -1 || count == 0 || !hasNextPage || pending then false
  else decide ((count : Int) - 1 ≤ lastIndex + (overscanMargin : Int))

/-- Modelled from the spec: the pagination engine state seen by the prefetch
effect.  `useInfiniteQuery` is not part of the inspected source; per the
spec, `fetchNextPage` marks a load in flight and the arriving page appends
its items and clears the pending flag. -/
structure PrefetchState where
  lastIndex : Int
  count : Nat
  hasNextPage : Bool
  pending : Bool
  fetchCalls : Nat
deriving DecidableEq

/-- Events seen by the prefetch effect: a scroll moving the visible range, a
run of the effect, and the arrival of a fetched page. -/
inductive PrefetchEvent where
  | scroll (newLastIndex : Int)
  | runEffect
  | pageArrive (newItems : Nat) (nextExists : Bool)
deriving DecidableEq

/-- One step of the prefetch trace. -/
def prefetchStep (s : PrefetchState) : PrefetchEvent → PrefetchState
  | .scroll i => { s with lastIndex := i }
  | .runEffect =>
      if shouldFetchNextPage s.lastIndex s.count s.hasNextPage s.pending then
        { s with pending := true, fetchCalls := s.fetchCalls + 1 }
      else s
  | .pageArrive n nx =>
      { s with count := s.count + n, pending := false, hasNextPage := nx }

/-- Run a sequence of prefetch events. -/
def prefetchRun (s : PrefetchState) (es : List PrefetchEvent) : PrefetchState :=
  es.foldl prefetchStep s

/-- Whether an event is the arrival of a page. -/
def isPageArrive : PrefetchEvent → Bool
  | .pageArrive _ _ => true
  | _ => false

/-- Source `rangeExtractor` (lines 270 to 282): the indexes the default range
extractor produced for the visible range, with index 0 forced in at the
front and index `count - 1` forced in at the back when missing. -/
def rangeExtractor (count : Nat) (baseIndexes : List Nat) : List Nat :=
  let indexes := if baseIndexes.contains 0 then baseIndexes else 0 :: baseIndexes
  if indexes.contains (count - 1) then indexes else indexes ++ [count - 1]

/-- Outcome of one per-item media download (`fetchGif` in the source): bytes,
an abort (the item unmounted and its `AbortController` fired, making the
fetch reject with an abort error), or any other failure. -/
inductive DownloadOutcome where
  | success (bytes : List Nat)
  | abortErr
  | failure (message : String)
deriving DecidableEq

/-- Result of the per-item download effect: the cache state afterwards,
whether `log.error` was called, and the thumbnail source that was set. -/
structure DownloadResult where
  caches : GifBlobCaches
  loggedError : Bool
  src : Option Blob
deriving DecidableEq

/-- Source download effect (lines 560 to 586): on success the blob is saved
to the cache and becomes the thumbnail source; in the catch branch
`isAbortError` failures are silent and anything else is logged; neither
failure path writes the cache or sets a thumbnail. -/
def runItemDownload (st : GifBlobCaches) (ref : GifMediaRef) :
    DownloadOutcome → DownloadResult
  | .success bytes =>
      let blob : Blob := ⟨bytes⟩
      { caches := saveGifMediaToCache st ref blob
        loggedError := false
        src := some blob }
  | .abortErr => { caches := st, loggedError := false, src := none }
  | .failure _ => { caches := st, loggedError := true, src := none }

/-- Source `isTabbable` (lines 501 to 504): when some item key has been
keyboard-focused, an item is tabbable iff its key matches it; otherwise the
item at index 0 is the tabbable one. -/
def isTabbable (selectedItemKey : Option String) (key : String)
    (index : Nat) : Bool :=
  match selectedItemKey with
  | some sel => key == sel
  | none => index == 0

/-- Number of tabbable items among the rendered virtual items, given as
(key, index) pairs. -/
def tabbableCount (selectedItemKey : Option String)
    (rendered : List (String × Nat)) : Nat :=
  (rendered.filter (fun e => isTabbable selectedItemKey e.1 e.2)).length

/-- State of the debounced query controller: the stabilized query held in
`debouncedQuery` plus the armed `setTimeout`, if any, with the query it will
apply and its fire deadline. -/
structure DebounceState where
  debounced : GifsQuery
  pending : Option (GifsQuery × Nat)
deriving DecidableEq

/-- The query the raw inputs (trimmed search text, selected section)
currently request: the armed timer always holds the latest requested query,
and with no timer armed the stabilized query is the requested one. -/
def requestedQuery (s : DebounceState) : GifsQuery :=
  match s.pending with
  | some (q, _) => q
  | none => s.debounced

/-- Events of the controller: a change of the requested (trimmed) query at a
given time, or the armed timer firing at a given time. -/
inductive DebounceEvent where
  | input (q : GifsQuery) (t : Nat)
  | fire (t : Nat)
deriving DecidableEq

/-- One step of the debounce effect (source lines 163 to 188).  An input
whose query equals the requested one leaves the state unchanged (the effect
dependencies did not change, so neither cleanup nor effect re-runs).  A
changed input first cancels the armed timer (the effect cleanup); then: if
it equals the stabilized query the effect returns early; if its search text
is empty the query is applied immediately; otherwise a fresh 500 ms timer is
armed.  A timer that reaches its deadline applies its query (and the
re-running effect then returns early, leaving no timer armed). -/
def debounceStep (s : DebounceState) : DebounceEvent → DebounceState
  | .input q t =>
      if q = requestedQuery s then s
      else if q = s.debounced then { s with pending := none }
      else if q.searchQuery = "" then { debounced := q, pending := none }
      else { s with pending := some (q, t + 500) }
  | .fire t =>
      match s.pending with
      | some (q, d) =>
          if d ≤ t then { debounced := q, pending := none } else s
      | none => s

/-- Run a sequence of debounce events in order. -/
def debounceRun (s : DebounceState) (es : List DebounceEvent) : DebounceState :=
  es.foldl debounceStep s

/-- The query of the last (rightmost) input event of a trace, if any. -/
def lastInputQuery : List DebounceEvent → Option GifsQuery
  | [] => none
  | e :: es =>
      match lastInputQuery es with
      | some q => some q
      | none =>
          match e with
          | .input q _ => some q
          | .fire _ => none

end FunGifs

namespace FunGifs

/-- C2: with empty search text the loader resolves recents synchronously from
the local list with a null cursor, dispatches trending to the featured fetch,
dispatches each of the seven mood categories to the generic search fetch with
its canonical term, and throws a fatal error for any section outside this
enumeration (here, the `SearchResults` section). -/
theorem C2_loader_empty_search_dispatch
    (recents : List GifType) (prev : Option GifsPaginated) :
    loader recents ⟨.recents, ""⟩ prev
        = .ok (.page { next := none, gifs := recents })
      ∧ loader recents ⟨.trending, ""⟩ prev
        = .ok (.featured (loaderLimit prev) (loaderCursor prev))
      ∧ loader recents ⟨.celebrate, ""⟩ prev
        = .ok (.search "celebrate" (loaderLimit prev) (loaderCursor prev))
      ∧ loader recents ⟨.love, ""⟩ prev
        = .ok (.search "love" (loaderLimit prev) (loaderCursor prev))
      ∧ loader recents ⟨.thumbsUp, ""⟩ prev
        = .ok (.search "thumbs-up" (loaderLimit prev) (loaderCursor prev))
      ∧ loader recents ⟨.surprised, ""⟩ prev
        = .ok (.search "surprised" (loaderLimit prev) (loaderCursor prev))
      ∧ loader recents ⟨.excited, ""⟩ prev
        = .ok (.search "excited" (loaderLimit prev) (loaderCursor prev))
      ∧ loader recents ⟨.sad, ""⟩ prev
        = .ok (.search "sad" (loaderLimit prev) (loaderCursor prev))
      ∧ loader recents ⟨.angry, ""⟩ prev
        = .ok (.search "angry" (loaderLimit prev) (loaderCursor prev))
      ∧ (∀ sec : FunGifsSection,
          sec ≠ .recents → sec ≠ .trending → sec ≠ .celebrate → sec ≠ .love →
          sec ≠ .thumbsUp → sec ≠ .surprised → sec ≠ .excited → sec ≠ .sad →
          sec ≠ .angry →
          exceptIsOk (loader recents ⟨sec, ""⟩ prev) = false) := by
  refine ⟨rfl, rfl, rfl, rfl, rfl, rfl, rfl, rfl, rfl, ?_⟩
  intro sec h1 h2 h3 h4 h5 h6 h7 h8 h9
  cases sec <;> simp_all [loader, exceptIsOk]

/-- Witness for C2 at a concrete section outside the dispatch enumeration. -/
theorem C2_loader_empty_search_dispatch_witness :
    exceptIsOk (loader [] ⟨.searchResults, ""⟩ none) = false := by
  have h := (C2_loader_empty_search_dispatch [] none).2.2.2.2.2.2.2.2.2
  exact h .searchResults (by decide) (by decide) (by decide) (by decide)
    (by decide) (by decide) (by decide) (by decide) (by decide)

/-- C7: a load issued with no previous cursor (first page of a query)
requests limit 10, and a load issued with a continuation cursor requests
limit 30; the dispatched fetch actions carry exactly this limit. -/
theorem C7_page_size_policy (prev : Option GifsPaginated) :
    (loaderCursor prev = none → loaderLimit prev = 10)
      ∧ (∀ c, loaderCursor prev = some c → loaderLimit prev = 30)
      ∧ (∀ recents, loader recents ⟨.trending, ""⟩ prev
          = .ok (.featured (loaderLimit prev) (loaderCursor prev))) := by
  refine ⟨?_, ?_, fun _ => rfl⟩
  · intro h; simp [loaderLimit, h]
  · intro c h; simp [loaderLimit, h]

/-- Witness for C7: first page gets limit 10, cursor page gets limit 30. -/
theorem C7_page_size_policy_witness :
    loaderLimit none = 10
      ∧ loaderLimit (some { next := some "c1", gifs := [] }) = 30 := by
  constructor
  · exact (C7_page_size_policy none).1 rfl
  · exact (C7_page_size_policy (some { next := some "c1", gifs := [] })).2.1
      "c1" rfl

/-- C10: non-empty trimmed search text takes strict precedence over the
selected section: the loader dispatches the generic search fetch with that
text, for every section value alike. -/
theorem C10_search_text_precedence
    (recents : List GifType) (sec : FunGifsSection) (txt : String)
    (prev : Option GifsPaginated) (h : txt ≠ "") :
    loader recents ⟨sec, txt⟩ prev
      = .ok (.search txt (loaderLimit prev) (loaderCursor prev)) := by
  simp [loader, h]

/-- Witness for C10 at a concrete non-empty search text and a section that
would otherwise dispatch differently. -/
theorem C10_search_text_precedence_witness :
    loader [] ⟨.recents, "cats"⟩ none
      = .ok (.search "cats" (loaderLimit none) (loaderCursor none)) :=
  C10_search_text_precedence [] .recents "cats" none (by decide)

theorem listSize_filter_le (p : String × Blob → Bool) (l : List (String × Blob)) :
    listSize (l.filter p) ≤ listSize l := by
  induction l with
  | nil => simp [listSize]
  | cons x xs ih =>
    by_cases h : p x
    · simpa [listSize, List.filter_cons, h] using ih
    · simp only [listSize, List.filter_cons, h, Bool.false_eq_true, if_false,
        List.map_cons, List.sum_cons] at *
      omega

theorem listSize_evictToFit (l : List (String × Blob)) (budget : Nat) :
    listSize (evictToFit l budget) ≤ budget := by
  generalize hn : l.length = n
  induction n using Nat.strong_induction_on generalizing l with
  | _ n ih =>
    rw [evictToFit]
    split
    · assumption
    · rename_i h
      cases l with
      | nil => simp [listSize] at h
      | cons x xs =>
        exact ih (x :: xs).dropLast.length (by simp at hn ⊢; omega)
          (x :: xs).dropLast rfl

theorem evictToFit_take (l : List (String × Blob)) (budget : Nat) :
    ∃ m, evictToFit l budget = l.take m := by
  generalize hn : l.length = n
  induction n using Nat.strong_induction_on generalizing l with
  | _ n ih =>
    rw [evictToFit]
    split
    · exact ⟨l.length, (List.take_length l).symm⟩
    · rename_i h
      cases l with
      | nil => simp [listSize] at h
      | cons x xs =>
        obtain ⟨m, hm⟩ := ih (x :: xs).dropLast.length
          (by simp at hn ⊢; omega) (x :: xs).dropLast rfl
        refine ⟨min m ((x :: xs).length - 1), ?_⟩
        rw [hm, List.dropLast_eq_take, List.take_take]

theorem LRUCache.maxSize_set (c : LRUCache) (k : String) (b : Blob) :
    (c.set k b).maxSize = c.maxSize := by
  unfold LRUCache.set
  split <;> rfl

theorem LRUCache.maxSize_get (c : LRUCache) (k : String) :
    (c.get k).2.maxSize = c.maxSize := by
  unfold LRUCache.get
  split <;> rfl

theorem LRUCache.totalSize_set_le (c : LRUCache) (k : String) (b : Blob)
    (h : c.totalSize ≤ c.maxSize) : (c.set k b).totalSize ≤ c.maxSize := by
  unfold LRUCache.set
  split
  · exact h
  · rename_i hb
    have hev := listSize_evictToFit (eraseKey c.entries k) (c.maxSize - b.size)
    simp only [LRUCache.totalSize, listSize, List.map_cons, List.sum_cons] at *
    omega

theorem find?_size_add_filter_le (l : List (String × Blob)) (k : String)
    (e : String × Blob) (h : l.find? (fun x => x.1 == k) = some e) :
    e.2.size + listSize (l.filter (fun x => x.1 != k)) ≤ listSize l := by
  induction l with
  | nil => simp at h
  | cons x xs ih =>
    by_cases hx : x.1 == k
    · rw [List.find?_cons] at h
      simp only [hx, Option.some.injEq] at h
      subst h
      have := listSize_filter_le (fun y => y.1 != k) xs
      simp only [listSize, List.filter_cons, bne, hx, Bool.not_true,
        Bool.false_eq_true, if_false, List.map_cons, List.sum_cons] at *
      omega
    · rw [List.find?_cons] at h
      rw [Bool.not_eq_true] at hx
      simp only [hx] at h
      have := ih h
      simp only [listSize, List.filter_cons, bne, hx, Bool.not_false,
        if_true, List.map_cons, List.sum_cons] at *
      omega

theorem LRUCache.totalSize_get_le (c : LRUCache) (k : String) :
    (c.get k).2.totalSize ≤ c.totalSize := by
  unfold LRUCache.get
  cases hf : c.entries.find? (fun e => e.1 == k) with
  | none => simp [LRUCache.totalSize]
  | some e =>
    have := find?_size_add_filter_le c.entries k e hf
    simp only [LRUCache.totalSize, listSize, eraseKey, List.map_cons,
      List.sum_cons] at *
    omega

theorem totalSize_runCacheOps_le (ops : List CacheOp) (c : LRUCache)
    (h : c.totalSize ≤ c.maxSize) :
    (runCacheOps c ops).totalSize ≤ (runCacheOps c ops).maxSize := by
  induction ops generalizing c with
  | nil => exact h
  | cons op ops ih =>
    have hstep : (runCacheOp c op).totalSize ≤ (runCacheOp c op).maxSize := by
      cases op with
      | write k b =>
        simpa [runCacheOp, LRUCache.maxSize_set] using
          c.totalSize_set_le k b h
      | access k =>
        simp only [runCacheOp, LRUCache.maxSize_get]
        exact le_trans (c.totalSize_get_le k) h
    exact ih (runCacheOp c op) hstep

/-- C3: starting from the durable tier as configured in the source
(bound `MAX_CACHE_SIZE` = 50 MB), the total byte cost never exceeds the bound
after any sequence of writes and accesses; an insertion whose single entry
exceeds the bound is rejected outright; and eviction only ever drops entries
from the least-recently-accessed end of the recency order (the survivors are
an initial segment of the most-recently-accessed entries). -/
theorem C3_durable_cache_byte_bound (ops : List CacheOp) :
    (runCacheOps FunGifBlobCacheInit ops).totalSize ≤ MAX_CACHE_SIZE
      ∧ (∀ (c : LRUCache) (k : String) (b : Blob),
          c.maxSize < b.size → c.set k b = c)
      ∧ (∀ (l : List (String × Blob)) (budget : Nat),
          ∃ m, evictToFit l budget = l.take m) := by
  refine ⟨?_, ?_, evictToFit_take⟩
  · have hmax : ∀ (c : LRUCache) (os : List CacheOp),
        (runCacheOps c os).maxSize = c.maxSize := by
      intro c os
      induction os generalizing c with
      | nil => rfl
      | cons op os ih =>
        have : (runCacheOp c op).maxSize = c.maxSize := by
          cases op with
          | write k b => exact c.maxSize_set k b
          | access k => exact c.maxSize_get k
        simpa [runCacheOps, List.foldl_cons, this] using ih (runCacheOp c op)
    have h := totalSize_runCacheOps_le ops FunGifBlobCacheInit
      (by simp [FunGifBlobCacheInit, LRUCache.totalSize, listSize])
    rw [hmax FunGifBlobCacheInit ops] at h
    exact h
  · intro c k b hb
    unfold LRUCache.set
    simp [hb]

/-- Witness for C3: a concrete write respects the bound, and a concrete
oversized insertion is rejected. -/
theorem C3_durable_cache_byte_bound_witness :
    (runCacheOps FunGifBlobCacheInit
        [.write "a" ⟨[1, 2, 3]⟩]).totalSize ≤ MAX_CACHE_SIZE
      ∧ ({ entries := [], maxSize := 2 } : LRUCache).set "k" ⟨[7, 7, 7]⟩
        = { entries := [], maxSize := 2 } := by
  constructor
  · exact (C3_durable_cache_byte_bound [.write "a" ⟨[1, 2, 3]⟩]).1
  · exact (C3_durable_cache_byte_bound []).2.1
      { entries := [], maxSize := 2 } "k" ⟨[7, 7, 7]⟩ (by decide)

/-- C4: cache round-trip — after `saveGifMediaToCache` a read of the same
reference returns the written buffer; `readGifMediaFromCache` consults the
identity tier first and falls back to the url-keyed durable tier only on an
identity miss; the write populates both tiers; and once the identity-tier
scope of the reference ends, the read still returns the buffer from the
durable tier as long as it has not been evicted (here: it fits the bound and
no later write intervened). -/
theorem C4_cache_round_trip (st : GifBlobCaches) (ref : GifMediaRef) (buf : Blob) :
    readGifMediaFromCache (saveGifMediaToCache st ref buf) ref = some buf
      ∧ (∀ b, liveLookup st.liveCache ref.identity = some b →
          readGifMediaFromCache st ref = some b)
      ∧ (liveLookup st.liveCache ref.identity = none →
          readGifMediaFromCache st ref = st.blobCache.lookup ref.media.url)
      ∧ (saveGifMediaToCache st ref buf).blobCache
        = st.blobCache.set ref.media.url buf
      ∧ liveLookup (saveGifMediaToCache st ref buf).liveCache ref.identity
        = some buf
      ∧ (buf.size ≤ st.blobCache.maxSize →
          readGifMediaFromCache
            (collectLiveRef (saveGifMediaToCache st ref buf) ref.identity) ref
            = some buf) := by
  refine ⟨?_, ?_, ?_, rfl, ?_, ?_⟩
  · simp [readGifMediaFromCache, saveGifMediaToCache, liveLookup]
  · intro b hb
    simp [readGifMediaFromCache, hb]
  · intro hb
    simp [readGifMediaFromCache, hb]
  · simp [saveGifMediaToCache, liveLookup]
  · intro hsize
    have hlive : liveLookup
        (collectLiveRef (saveGifMediaToCache st ref buf) ref.identity).liveCache
        ref.identity = none := by
      simp only [collectLiveRef, liveLookup, Option.map_eq_none',
        List.find?_eq_none]
      intro x hx
      have := List.of_mem_filter hx
      simp_all [bne]
    rw [readGifMediaFromCache, hlive]
    simp only [collectLiveRef, saveGifMediaToCache]
    rw [LRUCache.set]
    simp only [Nat.not_lt.mpr hsize, if_neg (Nat.not_lt.mpr hsize)]
    simp [LRUCache.lookup, List.find?_cons_of_pos]

/-- Witness for C4 at a concrete cache state, reference and buffer. -/
theorem C4_cache_round_trip_witness :
    readGifMediaFromCache
        (saveGifMediaToCache ⟨FunGifBlobCacheInit, []⟩ ⟨0, "u", 3, 4⟩ ⟨[9]⟩)
        ⟨0, "u", 3, 4⟩ = some ⟨[9]⟩
      ∧ readGifMediaFromCache
          (collectLiveRef
            (saveGifMediaToCache ⟨FunGifBlobCacheInit, []⟩ ⟨0, "u", 3, 4⟩ ⟨[9]⟩)
            0)
          ⟨0, "u", 3, 4⟩ = some ⟨[9]⟩ := by
  constructor
  · exact (C4_cache_round_trip ⟨FunGifBlobCacheInit, []⟩ ⟨0, "u", 3, 4⟩ ⟨[9]⟩).1
  · exact (C4_cache_round_trip ⟨FunGifBlobCacheInit, []⟩ ⟨0, "u", 3, 4⟩
      ⟨[9]⟩).2.2.2.2.2 (by decide)

/-- C5: the prefetch effect calls `fetchNextPage` exactly when the visible
range exists, the end of the visible range plus the overscan margin (8)
reaches `count - 1`, a next page exists, and no load is pending; with a
40-item list the threshold is end index 31; a call marks a load in flight;
and while a load is in flight no further call happens until a page arrives
and changes the count. -/
theorem C5_prefetch_trigger :
    (∀ (lastIndex : Int) (count : Nat) (hasNext pending : Bool),
        0 ≤ lastIndex → 0 < count →
        (shouldFetchNextPage lastIndex count hasNext pending = true ↔
          ((count : Int) - 1 ≤ lastIndex + (overscanMargin : Int)
            ∧ hasNext = true ∧ pending = false)))
      ∧ (∀ l : Nat,
          shouldFetchNextPage (l : Int) 40 true false = decide (31 ≤ l))
      ∧ (∀ s : PrefetchState,
          shouldFetchNextPage s.lastIndex s.count s.hasNextPage s.pending
            = true →
          (prefetchStep s .runEffect).fetchCalls = s.fetchCalls + 1
            ∧ (prefetchStep s .runEffect).pending = true)
      ∧ (∀ (s : PrefetchState) (es : List PrefetchEvent),
          s.pending = true → (∀ e ∈ es, isPageArrive e = false) →
          (prefetchRun s es).fetchCalls = s.fetchCalls) := by
  refine ⟨?_, ?_, ?_, ?_⟩
  · intro lastIndex count hasNext pending h0 hc
    have hne : (lastIndex == -1) = false := by
      simp only [beq_eq_false_iff_ne, ne_eq]
      omega
    have hcz : (count == 0) = false := by
      simp only [beq_eq_false_iff_ne, ne_eq]
      omega
    cases hasNext <;> cases pending <;>
      simp [shouldFetchNextPage, hne, hcz]
  · intro l
    have hne : ((l : Int) == -1) = false := by
      simp only [beq_eq_false_iff_ne, ne_eq]
      omega
    simp only [shouldFetchNextPage, hne, Bool.false_or, Bool.not_true,
      Bool.or_false]
    have h40 : ((40 : Nat) == 0) = false := by decide
    rw [h40]
    simp only [Bool.false_or, if_false, Bool.false_eq_true]
    rw [decide_eq_decide]
    constructor <;> (intro h; simp [overscanMargin, GIF_WATERFALL_COLUMNS] at *; omega)
  · intro s h
    simp [prefetchStep, h]
  · intro s es hp hno
    induction es generalizing s with
    | nil => rfl
    | cons e es ih =>
      have he := hno e (List.mem_cons_self e es)
      have hstep : (prefetchStep s e).pending = true
          ∧ (prefetchStep s e).fetchCalls = s.fetchCalls := by
        cases e with
        | scroll i => exact ⟨hp, rfl⟩
        | runEffect =>
          have hsf : shouldFetchNextPage s.lastIndex s.count s.hasNextPage
              true = false := by
            simp [shouldFetchNextPage]
          simp [prefetchStep, hp, hsf]
        | pageArrive n nx => simp [isPageArrive] at he
      have hrun : prefetchRun s (e :: es) = prefetchRun (prefetchStep s e) es :=
        rfl
      rw [hrun, ih (prefetchStep s e) hstep.1
        (fun e' he' => hno e' (List.mem_cons_of_mem _ he'))]
      exact hstep.2

/-- Witness for C5: with 40 items the trigger fires at end index 31 and not
at 30, and a pending load suppresses further calls across scrolls and
effect runs until a page arrives. -/
theorem C5_prefetch_trigger_witness :
    shouldFetchNextPage (31 : Int) 40 true false = true
      ∧ shouldFetchNextPage (30 : Int) 40 true false = false
      ∧ (prefetchRun
          { lastIndex := 31, count := 40, hasNextPage := true,
            pending := true, fetchCalls := 1 }
          [.runEffect, .scroll 39, .runEffect]).fetchCalls = 1 := by
  refine ⟨?_, ?_, ?_⟩
  · have h := (C5_prefetch_trigger.2.1 31)
    simpa using h
  · have h := (C5_prefetch_trigger.2.1 30)
    simpa using h
  · exact C5_prefetch_trigger.2.2.2
      { lastIndex := 31, count := 40, hasNextPage := true,
        pending := true, fetchCalls := 1 }
      [.runEffect, .scroll 39, .runEffect] rfl (by decide)

/-- C6: for every item count at least 1 and every base range the virtualizer
proposes, the produced index list contains index 0 and index `count - 1`. -/
theorem C6_range_contains_boundaries (count : Nat) (baseIndexes : List Nat)
    (_h : 0 < count) :
    0 ∈ rangeExtractor count baseIndexes
      ∧ (count - 1) ∈ rangeExtractor count baseIndexes := by
  have key : ∀ l : List Nat, 0 ∈ l →
      0 ∈ (if l.contains (count - 1) = true then l else l ++ [count - 1])
        ∧ (count - 1) ∈ (if l.contains (count - 1) = true then l
            else l ++ [count - 1]) := by
    intro l h0
    by_cases hc : l.contains (count - 1) = true
    · rw [if_pos hc]
      exact ⟨h0, List.elem_iff.mp hc⟩
    · rw [if_neg hc]
      exact ⟨List.mem_append_left _ h0,
        List.mem_append_right _ (List.mem_singleton.mpr rfl)⟩
  simp only [rangeExtractor]
  by_cases h0 : baseIndexes.contains 0 = true
  · rw [if_pos h0]
    exact key baseIndexes (List.elem_iff.mp h0)
  · rw [if_neg h0]
    exact key (0 :: baseIndexes) (List.mem_cons_self 0 baseIndexes)

/-- Witness for C6 at a concrete count and base range missing both
boundaries. -/
theorem C6_range_contains_boundaries_witness :
    0 ∈ rangeExtractor 40 [5, 6, 7] ∧ 39 ∈ rangeExtractor 40 [5, 6, 7] :=
  C6_range_contains_boundaries 40 [5, 6, 7] (by decide)

/-- C8: an aborted per-item download (item unmounted mid-flight) writes
nothing to the cache and logs nothing; a download that fails for any other
reason is logged, writes nothing to the cache, and leaves the item without a
thumbnail; only a successful download writes the cache. -/
theorem C8_download_error_handling (st : GifBlobCaches) (ref : GifMediaRef) :
    runItemDownload st ref .abortErr
        = { caches := st, loggedError := false, src := none }
      ∧ (∀ msg, runItemDownload st ref (.failure msg)
          = { caches := st, loggedError := true, src := none })
      ∧ (∀ bytes, (runItemDownload st ref (.success bytes)).caches
          = saveGifMediaToCache st ref ⟨bytes⟩
          ∧ (runItemDownload st ref (.success bytes)).loggedError = false) :=
  ⟨rfl, fun _ => rfl, fun _ => ⟨rfl, rfl⟩⟩

theorem length_filter_key_eq {α β : Type} [DecidableEq β] (f : α → β) (a : β)
    (l : List α) (h : (l.map f).Nodup) :
    (l.filter (fun x => f x == a)).length ≤ 1
      ∧ (a ∈ l.map f → (l.filter (fun x => f x == a)).length = 1) := by
  induction l with
  | nil => simp
  | cons x xs ih =>
    simp only [List.map_cons, List.nodup_cons] at h
    obtain ⟨hnotin, hnd⟩ := h
    by_cases hx : f x = a
    · subst hx
      have hfe : xs.filter (fun y => f y == f x) = [] := by
        rw [List.filter_eq_nil_iff]
        intro y hy
        simp only [beq_iff_eq]
        intro hc
        exact hnotin (hc ▸ List.mem_map_of_mem f hy)
      simp [List.filter_cons, hfe]
    · have hxb : (f x == a) = false := by simp [hx]
      constructor
      · simpa [List.filter_cons, hxb] using (ih hnd).1
      · intro hmem
        simp only [List.map_cons, List.mem_cons] at hmem
        rcases hmem with h1 | h2
        · exact absurd h1.symm hx
        · simpa [List.filter_cons, hxb] using (ih hnd).2 h2

/-- C9 counterexample: a rendered state with two items whose most recently
keyboard-focused key is no longer among the rendered items (the focused item
scrolled out of the virtualized range or the result list changed) has zero
tabbable items, refuting that exactly one item is always tabbable. -/
theorem C9_counterexample :
    0 < ([("a", 0), ("b", 1)] : List (String × Nat)).length
      ∧ tabbableCount (some "x") [("a", 0), ("b", 1)] ≠ 1 := by
  decide

/-- C9 amended: at most one rendered item is ever tabbable (rendered keys
and indexes are distinct); exactly one is tabbable when no item has been
keyboard-focused yet (the item at index 0, which the range extractor always
keeps rendered) or when the most recently focused key is still among the
rendered items. -/
theorem C9_roving_tabindex_amended (sel : Option String)
    (rendered : List (String × Nat))
    (hkeys : (rendered.map Prod.fst).Nodup)
    (hidx : (rendered.map Prod.snd).Nodup) :
    tabbableCount sel rendered ≤ 1
      ∧ (sel = none → 0 ∈ rendered.map Prod.snd →
          tabbableCount sel rendered = 1)
      ∧ (∀ s, sel = some s → s ∈ rendered.map Prod.fst →
          tabbableCount sel rendered = 1) := by
  cases sel with
  | none =>
    have h := length_filter_key_eq Prod.snd 0 rendered hidx
    refine ⟨?_, ?_, ?_⟩
    · simpa [tabbableCount, isTabbable] using h.1
    · intro _ hmem
      simpa [tabbableCount, isTabbable] using h.2 hmem
    · intro s hs
      exact absurd hs (by simp)
  | some s =>
    have h := length_filter_key_eq Prod.fst s rendered hkeys
    refine ⟨?_, ?_, ?_⟩
    · simpa [tabbableCount, isTabbable] using h.1
    · intro hnone
      exact absurd hnone (by simp)
    · intro s' hs hmem
      have hss : s' = s := by injection hs.symm
      subst hss
      simpa [tabbableCount, isTabbable] using h.2 hmem

/-- Witness for C9 amended: a concrete rendered list where the focused key
is present (exactly one tabbable) and where nothing is focused yet (item 0
tabbable). -/
theorem C9_roving_tabindex_amended_witness :
    tabbableCount (some "a") [("a", 0), ("b", 1)] = 1
      ∧ tabbableCount none [("a", 0), ("b", 1)] = 1 := by
  constructor
  · exact (C9_roving_tabindex_amended (some "a") [("a", 0), ("b", 1)]
      (by decide) (by decide)).2.2 "a" rfl (by decide)
  · exact (C9_roving_tabindex_amended none [("a", 0), ("b", 1)]
      (by decide) (by decide)).2.1 rfl (by decide)

theorem debounceStep_fire_pending (s : DebounceState) (t : Nat)
    (q : GifsQuery) (d : Nat)
    (h : (debounceStep s (.fire t)).pending = some (q, d)) :
    s.pending = some (q, d) := by
  cases hp : s.pending with
  | none =>
    have hstep : debounceStep s (.fire t) = s := by simp [debounceStep, hp]
    rw [hstep] at h
    rw [hp] at h
    exact h
  | some e =>
    obtain ⟨q0, d0⟩ := e
    by_cases hd : d0 ≤ t
    · have hstep : debounceStep s (.fire t)
          = { debounced := q0, pending := none } := by
        simp [debounceStep, hp, hd]
      rw [hstep] at h
      simp at h
    · have hstep : debounceStep s (.fire t) = s := by
        simp [debounceStep, hp, hd]
      rw [hstep] at h
      rw [hp] at h
      exact h

theorem debounceStep_input_pending (s : DebounceState) (q' : GifsQuery)
    (t' : Nat) (q : GifsQuery) (d : Nat)
    (h : (debounceStep s (.input q' t')).pending = some (q, d)) :
    q' = q ∧ (d = t' + 500 ∨ s.pending = some (q, d)) := by
  simp only [debounceStep] at h
  by_cases h1 : q' = requestedQuery s
  · rw [if_pos h1] at h
    refine ⟨?_, Or.inr h⟩
    rw [h1]
    simp [requestedQuery, h]
  · rw [if_neg h1] at h
    by_cases h2 : q' = s.debounced
    · rw [if_pos h2] at h; simp at h
    · rw [if_neg h2] at h
      by_cases h3 : q'.searchQuery = ""
      · rw [if_pos h3] at h; simp at h
      · rw [if_neg h3] at h
        simp only [Option.some.injEq, Prod.mk.injEq] at h
        exact ⟨h.1, Or.inl h.2.symm⟩

theorem debounce_pending_last (es : List DebounceEvent) (s0 : DebounceState)
    (q : GifsQuery) (d : Nat)
    (h : (debounceRun s0 es).pending = some (q, d)) :
    (lastInputQuery es = some q
        ∨ (lastInputQuery es = none ∧ s0.pending = some (q, d)))
      ∧ ((∃ t0, DebounceEvent.input q t0 ∈ es ∧ d = t0 + 500)
        ∨ s0.pending = some (q, d)) := by
  induction es generalizing s0 with
  | nil => exact ⟨Or.inr ⟨rfl, h⟩, Or.inr h⟩
  | cons e es ih =>
    have hrun : debounceRun s0 (e :: es) = debounceRun (debounceStep s0 e) es :=
      rfl
    rw [hrun] at h
    obtain ⟨hA, hB⟩ := ih (debounceStep s0 e) h
    constructor
    · rcases hA with h1 | ⟨h2, h3⟩
      · left
        simp [lastInputQuery, h1]
      · cases e with
        | fire t =>
          right
          exact ⟨by simp [lastInputQuery, h2],
            debounceStep_fire_pending s0 t q d h3⟩
        | input q' t' =>
          left
          have hq : q' = q := (debounceStep_input_pending s0 q' t' q d h3).1
          simp [lastInputQuery, h2, hq]
    · rcases hB with h1 | h3
      · left
        obtain ⟨t0, hmem, hd⟩ := h1
        exact ⟨t0, List.mem_cons_of_mem _ hmem, hd⟩
      · cases e with
        | fire t =>
          right
          exact debounceStep_fire_pending s0 t q d h3
        | input q' t' =>
          obtain ⟨hq, hcase⟩ := debounceStep_input_pending s0 q' t' q d h3
          rcases hcase with hd | hp
          · left
            exact ⟨t', by rw [hq] at *; exact List.mem_cons_self _ _, hd⟩
          · right
            exact hp

theorem debounce_pending_none_run (es : List DebounceEvent)
    (s0 : DebounceState) (h0 : s0.pending = none)
    (hni : lastInputQuery es = none) :
    (debounceRun s0 es).pending = none := by
  by_contra hc
  cases hp : (debounceRun s0 es).pending with
  | none => exact hc hp
  | some e =>
    obtain ⟨q, d⟩ := e
    obtain ⟨hA, _⟩ := debounce_pending_last es s0 q d hp
    rcases hA with h1 | ⟨_, h3⟩
    · rw [hni] at h1; exact Option.noConfusion h1
    · rw [h0] at h3; exact Option.noConfusion h3

/-- C1: the debounce effect applies an empty-search query immediately and
cancels any armed timer; a changed non-empty-search query leaves the
stabilized query untouched and (re)arms a single 500 ms timer, cancelling
any previously armed one; a timer applies its query only at or after its
deadline; and along any trace started with no timer armed, every change of
the stabilized query is either the immediate application of an empty-search
input or a timer firing at least 500 ms after the last input, applying
exactly the last input query — never an intermediate keystroke value. -/
theorem C1_debounce_behavior :
    (∀ (s : DebounceState) (q : GifsQuery) (t : Nat),
        (∀ q0 d0, s.pending = some (q0, d0) → q0.searchQuery ≠ "") →
        q.searchQuery = "" →
        (debounceStep s (.input q t)).debounced = q
          ∧ (debounceStep s (.input q t)).pending = none)
      ∧ (∀ (s : DebounceState) (q : GifsQuery) (t : Nat),
        q.searchQuery ≠ "" → q ≠ s.debounced → q ≠ requestedQuery s →
        (debounceStep s (.input q t)).debounced = s.debounced
          ∧ (debounceStep s (.input q t)).pending = some (q, t + 500))
      ∧ (∀ (s : DebounceState) (q : GifsQuery) (d t : Nat),
        s.pending = some (q, d) →
        (d ≤ t →
          (debounceStep s (.fire t)).debounced = q
            ∧ (debounceStep s (.fire t)).pending = none)
          ∧ (¬d ≤ t → debounceStep s (.fire t) = s))
      ∧ (∀ (s0 : DebounceState) (es : List DebounceEvent) (e : DebounceEvent),
        s0.pending = none →
        (debounceStep (debounceRun s0 es) e).debounced
          ≠ (debounceRun s0 es).debounced →
        (∃ q t, e = .input q t ∧ q.searchQuery = ""
            ∧ (debounceStep (debounceRun s0 es) e).debounced = q)
          ∨ (∃ t q t0, e = .fire t ∧ lastInputQuery es = some q
              ∧ DebounceEvent.input q t0 ∈ es ∧ t0 + 500 ≤ t
              ∧ (debounceStep (debounceRun s0 es) e).debounced = q)) := by
  refine ⟨?_, ?_, ?_, ?_⟩
  · intro s q t hinv hq
    by_cases h1 : q = requestedQuery s
    · cases hp : s.pending with
      | some e =>
        obtain ⟨q0, d0⟩ := e
        have hq0 : q = q0 := by
          rw [h1]; simp [requestedQuery, hp]
        exact absurd (hq0 ▸ hq) (hinv q0 d0 hp)
      | none =>
        have hd : s.debounced = q := by
          rw [h1]; simp [requestedQuery, hp]
        have hstep : debounceStep s (.input q t) = s := by
          simp only [debounceStep, if_pos h1]
        rw [hstep]
        exact ⟨hd, hp⟩
    · by_cases h2 : q = s.debounced
      · have hstep : debounceStep s (.input q t)
            = { s with pending := none } := by
          simp only [debounceStep, if_neg h1, if_pos h2]
        rw [hstep]
        exact ⟨h2.symm, rfl⟩
      · have hstep : debounceStep s (.input q t)
            = { debounced := q, pending := none } := by
          simp only [debounceStep, if_neg h1, if_neg h2, if_pos hq]
        rw [hstep]
        exact ⟨rfl, rfl⟩
  · intro s q t hq h2 h1
    simp [debounceStep, if_neg h1, if_neg h2, if_neg hq, hq]
  · intro s q d t hp
    constructor
    · intro hd
      simp [debounceStep, hp, hd]
    · intro hd
      simp [debounceStep, hp, hd]
  · intro s0 es e h0 hchg
    cases e with
    | input q t =>
      left
      by_cases h1 : q = requestedQuery (debounceRun s0 es)
      · exact absurd (by simp [debounceStep, if_pos h1]) hchg
      · by_cases h2 : q = (debounceRun s0 es).debounced
        · exact absurd (by simp [debounceStep, if_neg h1, if_pos h2]) hchg
        · by_cases h3 : q.searchQuery = ""
          · exact ⟨q, t, rfl, h3, by simp [debounceStep, if_neg h1,
              if_neg h2, if_pos h3]⟩
          · exact absurd (by simp [debounceStep, if_neg h1, if_neg h2,
              if_neg h3]) hchg
    | fire t =>
      right
      cases hp : (debounceRun s0 es).pending with
      | none => exact absurd (by simp [debounceStep, hp]) hchg
      | some e0 =>
        obtain ⟨q, d⟩ := e0
        by_cases hd : d ≤ t
        · obtain ⟨hA, hB⟩ := debounce_pending_last es s0 q d hp
          have hlast : lastInputQuery es = some q := by
            rcases hA with h1 | ⟨_, h3⟩
            · exact h1
            · rw [h0] at h3; exact Option.noConfusion h3
          have hBmem : ∃ t0, DebounceEvent.input q t0 ∈ es ∧ d = t0 + 500 := by
            rcases hB with h1 | h3
            · exact h1
            · rw [h0] at h3; exact Option.noConfusion h3
          obtain ⟨t0, hmem, hdt⟩ := hBmem
          exact ⟨t, q, t0, rfl, hlast, hmem, by omega,
            by simp [debounceStep, hp, hd]⟩
        · exact absurd (by simp [debounceStep, hp, hd]) hchg

/-- Witness for C1: a category switch with empty search applies immediately;
typing "cat" arms a timer without touching the stabilized query; the timer
applies its query at its deadline; and in the trace type "cat" at 0 ms, type
"cats" at 300 ms, fire at 800 ms, the applied query is the last one,
"cats". -/
theorem C1_debounce_behavior_witness :
    ((debounceStep ⟨⟨.trending, ""⟩, none⟩
        (.input ⟨.recents, ""⟩ 0)).debounced = ⟨.recents, ""⟩
      ∧ (debounceStep ⟨⟨.trending, ""⟩, none⟩
        (.input ⟨.recents, ""⟩ 0)).pending = none)
      ∧ ((debounceStep ⟨⟨.trending, ""⟩, none⟩
          (.input ⟨.searchResults, "cat"⟩ 0)).debounced = ⟨.trending, ""⟩
        ∧ (debounceStep ⟨⟨.trending, ""⟩, none⟩
          (.input ⟨.searchResults, "cat"⟩ 0)).pending
          = some (⟨.searchResults, "cat"⟩, 500))
      ∧ (debounceStep ⟨⟨.trending, ""⟩, some (⟨.searchResults, "cat"⟩, 500)⟩
          (.fire 500)).debounced = ⟨.searchResults, "cat"⟩
      ∧ ((∃ q t, DebounceEvent.fire 800 = .input q t ∧ q.searchQuery = ""
            ∧ (debounceStep (debounceRun ⟨⟨.trending, ""⟩, none⟩
                [.input ⟨.searchResults, "cat"⟩ 0,
                 .input ⟨.searchResults, "cats"⟩ 300])
                (.fire 800)).debounced = q)
          ∨ (∃ t q t0, DebounceEvent.fire 800 = .fire t
              ∧ lastInputQuery
                  [.input ⟨.searchResults, "cat"⟩ 0,
                   .input ⟨.searchResults, "cats"⟩ 300] = some q
              ∧ DebounceEvent.input q t0
                  ∈ [DebounceEvent.input ⟨.searchResults, "cat"⟩ 0,
                     .input ⟨.searchResults, "cats"⟩ 300]
              ∧ t0 + 500 ≤ t
              ∧ (debounceStep (debounceRun ⟨⟨.trending, ""⟩, none⟩
                  [.input ⟨.searchResults, "cat"⟩ 0,
                   .input ⟨.searchResults, "cats"⟩ 300])
                  (.fire 800)).debounced = q)) := by
  refine ⟨?_, ?_, ?_, ?_⟩
  · exact C1_debounce_behavior.1 ⟨⟨.trending, ""⟩, none⟩ ⟨.recents, ""⟩ 0
      (by intro q0 d0 hcon; exact absurd hcon (by simp)) rfl
  · exact C1_debounce_behavior.2.1 ⟨⟨.trending, ""⟩, none⟩
      ⟨.searchResults, "cat"⟩ 0 (by decide) (by decide) (by decide)
  · exact ((C1_debounce_behavior.2.2.1
      ⟨⟨.trending, ""⟩, some (⟨.searchResults, "cat"⟩, 500)⟩
      ⟨.searchResults, "cat"⟩ 500 500 rfl).1 (by decide)).1
  · exact C1_debounce_behavior.2.2.2 ⟨⟨.trending, ""⟩, none⟩
      [.input ⟨.searchResults, "cat"⟩ 0, .input ⟨.searchResults, "cats"⟩ 300]
      (.fire 800) rfl (by decide)

end FunGifs
